import Mathlib

/-!
Shallow embedding of the statement-upload pipeline of this repository
(`src/server/routers/statement.ts`, the alternate router revision,
`src/lib/file-processing.ts`, `src/lib/vision-ai.ts`) and proofs about it.

Modelling conventions:
  - database writes are modelled as always succeeding; the database tables are
    explicit Lean values threaded through the operations;
  - the wall clock read by `new Date()` is an explicit `Nat` parameter;
  - external collaborators (HTTP fetch, filesystem access, the OCR service,
    the PDF page converter) are explicit oracle parameters;
  - JavaScript strings are Lean `String`s or `List Char`s; JavaScript number
    values produced by `parseFloat` on a `\d+\.\d\d` match are modelled as the
    exact rational they denote;
  - JavaScript truthiness of an optional string is `none`/empty ↦ false.
-/

/-! ## Statement status state machine (statement.ts lines 8-14, 101-194, 211-330) -/

/-- StatementStatus string constants from `statement.ts` lines 8-14. -/
inductive StSt where
  | UPLOADED
  | PROCESSING
  | REVIEW_NEEDED
  | COMPLETED
  | FAILED
deriving DecidableEq, Repr

/-- Outcome of one processing run: the try-block either completes or the
catch-handler runs. -/
inductive PipeOutcome where
  | success
  | failure
deriving DecidableEq, Repr

/-- Terminal status written at the end of one processing run: `COMPLETED` on
success (statement.ts line 173), `FAILED` in the catch handler (line 188). -/
def outcomeStatus : PipeOutcome → StSt
  | .success => .COMPLETED
  | .failure => .FAILED

/-- Status values written, in order, by the runs of a list of processing
operations on one statement: each run (the upload mutation's background task,
lines 101-194, or the explicit re-process operation, lines 236-330) first
writes `PROCESSING` and then writes its terminal status. -/
def writesOf : List PipeOutcome → List StSt
  | [] => []
  | o :: os => .PROCESSING :: outcomeStatus o :: writesOf os

/-- Full status history of one statement: created as `UPLOADED`
(statement.ts line 94) followed by the writes of every processing run
executed on it, serialized. -/
def statusTrace (ops : List PipeOutcome) : List StSt :=
  .UPLOADED :: writesOf ops

/-- Adjacent-pair check of a transition relation along a status history. -/
def chainOk (R : StSt → StSt → Bool) : List StSt → Bool
  | [] => true
  | [_] => true
  | a :: b :: rest => R a b && chainOk R (b :: rest)

/-- Transition relation asserted by the claim: only
`UPLOADED → PROCESSING → {COMPLETED, FAILED}`. -/
def claimAllowed : StSt → StSt → Bool
  | .UPLOADED, .PROCESSING => true
  | .PROCESSING, .COMPLETED => true
  | .PROCESSING, .FAILED => true
  | _, _ => false

/-- Transition relation the code actually guarantees: the claimed forward
transitions plus re-entry into `PROCESSING` from a terminal status, which the
explicit re-process operation performs unconditionally (statement.ts
lines 236-239). -/
def allowedWithReprocess : StSt → StSt → Bool
  | .UPLOADED, .PROCESSING => true
  | .PROCESSING, .COMPLETED => true
  | .PROCESSING, .FAILED => true
  | .COMPLETED, .PROCESSING => true
  | .FAILED, .PROCESSING => true
  | _, _ => false

/-! ## Transaction parser (statement.ts lines 31-49, alternate router lines 33-51) -/

/-- Whitespace predicate used to model `String.prototype.trim` on the
characters that occur in statement text. -/
def isWS (c : Char) : Bool := c = ' ' || c = '\t' || c = '\n' || c = '\r'

/-- Trim of `line.trim()`: drop whitespace from both ends. -/
def trimChars (l : List Char) : List Char :=
  ((l.dropWhile isWS).reverse.dropWhile isWS).reverse

/-- Attempt to match the regular expression `\$\d+\.\d{2}` at the head of the
list: a literal `$`, a maximal nonempty digit run, a literal `.`, then exactly
two digits; returns the matched characters. Backtracking the greedy `\d+`
never helps because every proper tail of the digit run starts with a digit,
not `.`. -/
def matchAmountAt : List Char → Option (List Char)
  | '$' :: rest =>
    let ds := rest.takeWhile Char.isDigit
    if ds.isEmpty then none
    else
      match rest.dropWhile Char.isDigit with
      | '.' :: d1 :: d2 :: _ =>
        if d1.isDigit && d2.isDigit then some ('$' :: ds ++ ['.', d1, d2]) else none
      | _ => none
  | _ => none

/-- First (leftmost) match of `\$\d+\.\d{2}` in the line, as returned by
`line.match(/\$\d+\.\d{2}/)?.[0]`. -/
def firstAmountMatch : List Char → Option (List Char)
  | [] => none
  | c :: rest =>
    match matchAmountAt (c :: rest) with
    | some m => some m
    | none => firstAmountMatch rest

/-- Global match list of `\$\d+\.\d{2}` in a line: scan left to right and
continue after the end of each match, with fuel for termination. -/
def amountMatchesF : Nat → List Char → List (List Char)
  | 0, _ => []
  | _ + 1, [] => []
  | fuel + 1, c :: rest =>
    match matchAmountAt (c :: rest) with
    | some m => m :: amountMatchesF fuel (rest.drop (m.length - 1))
    | none => amountMatchesF fuel rest

/-- Global match list of `\$\d+\.\d{2}` in a line. -/
def amountMatches (l : List Char) : List (List Char) :=
  amountMatchesF l.length l

/-- Value of a digit run read as a decimal natural number. -/
def digitsToNat (l : List Char) : Nat :=
  l.foldl (fun acc c => acc * 10 + (c.toNat - '0'.toNat)) 0

/-- Numeric value of `parseFloat(match.replace('$', ''))` on a matched
`$<digits>.<d><d>` string, as the exact rational it denotes. -/
def amountValue (m : List Char) : ℚ :=
  let s := m.drop 1
  let intPart := s.takeWhile Char.isDigit
  let fracPart := (s.dropWhile Char.isDigit).drop 1
  (digitsToNat intPart : ℚ) + (digitsToNat fracPart : ℚ) / 100

/-- Parsed transaction record pushed by `parseTransactions`: the `date` field
is the wall-clock reading `new Date().toISOString()` at the time of the call,
modelled as a `Nat` timestamp. -/
structure Tx where
  description : List Char
  amount : ℚ
  date : Nat
deriving DecidableEq, Repr

/-- Per-line step of `parseTransactions` (statement.ts lines 36-45): if the
line passes the `/\$\d+\.\d{2}/` test, push one transaction whose description
is the trimmed line and whose amount is the first match with `$` stripped,
else push nothing. -/
def parseLine (now : Nat) (line : List Char) : List Tx :=
  match firstAmountMatch line with
  | some m => [{ description := trimChars line, amount := amountValue m, date := now }]
  | none => []

/-- Concatenation of the per-line outputs over a list of lines. -/
def parseLinesGo (now : Nat) : List (List Char) → List Tx
  | [] => []
  | l :: ls => parseLine now l ++ parseLinesGo now ls

/-- Model of `parseTransactions` (statement.ts lines 31-49): split the text on
newline characters and emit the per-line transactions in order; `now` is the
wall-clock reading during the call. -/
def parseTransactions (now : Nat) (text : List Char) : List Tx :=
  parseLinesGo now (text.splitOn '\n')

/-- Description and amount fields of a parsed transaction. -/
def descAmount (t : Tx) : List Char × ℚ := (t.description, t.amount)

/-! ## List-of-characters utilities shared by the embedding -/

/-- Check that `sub` occurs at the start of the second list. -/
def leadsWith : List Char → List Char → Bool
  | [], _ => true
  | _ :: _, [] => false
  | a :: as, b :: bs => a == b && leadsWith as bs

/-- Check that `sub` occurs somewhere inside `l` (JavaScript
`String.prototype.includes`). -/
def hasSub (sub : List Char) : List Char → Bool
  | [] => leadsWith sub []
  | c :: rest => leadsWith sub (c :: rest) || hasSub sub rest

/-! ## PDF text extraction (vision-ai.ts lines 171-238) -/

/-- Page separator pushed before each nonempty page's text
(vision-ai.ts line 206): the template chunk is
`"\n--- Page " + (i+1) + " ---\n"`. -/
def pageSep (n : Nat) : List Char :=
  ("\n--- Page " ++ Nat.repr n ++ " ---\n").toList

/-- Accumulation loop of `extractTextFromPdf` (vision-ai.ts lines 194-208):
for each page index `i` below the page limit, the page is converted and its
OCR text `f i` is appended after a separator, but only when that text is
nonempty (`if (pageText)`). -/
def pdfAllText (pagesToProcess : Nat) (f : Nat → List Char) : List Char :=
  (List.range pagesToProcess).foldl
    (fun a i => if f i = [] then a else a ++ pageSep (i + 1) ++ f i ++ ['\n']) []

/-- Result of the PDF extraction: which zero-based pages were converted, and
the final text returned (`allText.trim()`, vision-ai.ts line 210). -/
structure PdfExtract where
  processedPages : List Nat
  text : List Char
deriving DecidableEq

/-- Model of `extractTextFromPdf` (vision-ai.ts lines 171-238): `numPages` is
the detected page count and `f i` is the OCR text of zero-based page `i`; at
most 10 pages are processed (`Math.min(numPages, 10)`, line 189), every
conversion and OCR call is modelled as succeeding. -/
def extractTextFromPdf (numPages : Nat) (f : Nat → List Char) : PdfExtract :=
  let pagesToProcess := min numPages 10
  { processedPages := List.range pagesToProcess
    text := trimChars (pdfAllText pagesToProcess f) }

/-- Concatenated page chunks as the loop builds them, one conditional chunk
per page index. -/
def chunks (f : Nat → List Char) : List Nat → List Char
  | [] => []
  | i :: is => (if f i = [] then [] else pageSep (i + 1) ++ f i ++ ['\n']) ++ chunks f is

/-- Concatenated page chunks when every page contributes: separator, page
text, newline, page by page. -/
def fullChunks (f : Nat → List Char) : List Nat → List Char
  | [] => []
  | i :: is => pageSep (i + 1) ++ f i ++ ['\n'] ++ fullChunks f is

/-! ## Account resolution (statement.ts lines 128-166 and 262-300) -/

/-- JavaScript truthiness of an optional string (`undefined`/`null` and the
empty string are falsy). -/
def truthy : Option String → Bool
  | some s => !s.isEmpty
  | none => false

/-- Extracted account metadata returned by `extractAccountInfo`; each field
may be absent. The extracted balance is modelled as an integer amount. -/
structure AccountInfo where
  financialInstitution : Option String
  lastFourDigits : Option String
  accountName : Option String
  accountType : Option String
  balance : Option Int
deriving DecidableEq, Repr

/-- Row of the BankAccount table; `balance` is stored via `.toString()`. -/
structure BankAccount where
  id : Nat
  userId : String
  name : String
  financialInstitution : String
  accountType : String
  lastFourDigits : String
  balance : Option String
deriving DecidableEq, Repr

/-- BankAccount table with the next id the database will assign; ids are
opaque nonempty strings in the source, modelled as naturals. -/
structure AccountsDB where
  accounts : List BankAccount
  nextId : Nat
deriving DecidableEq, Repr

/-- Lookup `prisma.bankAccount.findFirst` on the (user, institution,
last-four) triple (statement.ts lines 132-138). -/
def findMatching (db : AccountsDB) (uid inst lf : String) : Option BankAccount :=
  db.accounts.find? fun a =>
    a.userId == uid && a.financialInstitution == inst && a.lastFourDigits == lf

/-- Account-resolution step of the pipeline (statement.ts lines 128-166,
identically lines 262-300): when an explicit account id is present it is
returned unchanged; otherwise, when both last-four digits and institution
were extracted, find the matching account (updating its balance when one was
extracted) or create a new one with defaulted name and type; otherwise no
account is linked. Returns the chosen account id and the updated table. -/
def resolveAccount (db : AccountsDB) (uid : String) (info : AccountInfo)
    (explicitId : Option Nat) : Option Nat × AccountsDB :=
  match explicitId with
  | some i => (some i, db)
  | none =>
    if truthy info.lastFourDigits && truthy info.financialInstitution then
      let inst := info.financialInstitution.getD ""
      let lf := info.lastFourDigits.getD ""
      match findMatching db uid inst lf with
      | some existing =>
        match info.balance with
        | some b =>
          (some existing.id,
           { db with accounts := db.accounts.map fun a =>
               if a.id = existing.id then { a with balance := some (toString b) } else a })
        | none => (some existing.id, db)
      | none =>
        let newAcc : BankAccount :=
          { id := db.nextId
            userId := uid
            name := match info.accountName with
                    | some n => if n.isEmpty then inst ++ " Account" else n
                    | none => inst ++ " Account"
            financialInstitution := inst
            accountType := match info.accountType with
                           | some t => if t.isEmpty then "OTHER" else t
                           | none => "OTHER"
            lastFourDigits := lf
            balance := info.balance.map toString }
        (some db.nextId, { accounts := db.accounts ++ [newAcc], nextId := db.nextId + 1 })
    else (none, db)

/-- Extracted info of the claim's example: institution `Chase`, last-four
`1234`, nothing else extracted. -/
def chaseInfo : AccountInfo :=
  { financialInstitution := some "Chase", lastFourDigits := some "1234",
    accountName := none, accountType := none, balance := none }

/-- BankAccount table with no rows. -/
def emptyDB : AccountsDB := { accounts := [], nextId := 0 }

/-! ## Background processing run (statement.ts lines 101-194 and 241-330) -/

/-- Mutable fields of a Statement row touched by the processing run. -/
structure StatementRec where
  status : StSt
  errorMessage : Option String
  processedTimestamp : Option Nat
  accountId : Option Nat
deriving DecidableEq, Repr

/-- Result shape of `processUploadedFile` (file-processing.ts lines 6-10). -/
structure ProcessUploadResult where
  success : Bool
  text : Option String
  error : Option String
deriving DecidableEq, Repr

/-- Observable outcome of one background processing run: the final statement
row, the final BankAccount table, and how many times `processUploadedFile`
was invoked during the run. -/
structure BgRun where
  stmt : StatementRec
  db : AccountsDB
  extractCalls : Nat
deriving DecidableEq, Repr

/-- Fallback error message thrown when the extraction result carries no
truthy error string (statement.ts line 117). -/
def fallbackErr : String := "Failed to process statement text"

/-- Model of one processing run after the statement exists (statement.ts
lines 102-193; identically the re-process body, lines 235-329): write
`PROCESSING`, call `processUploadedFile` once (its result is the oracle
`res`), and either finish the pipeline with `COMPLETED` or catch the thrown
error and finish with `FAILED`, the error's message and a processed
timestamp. The guard mirrors
`!processingResult.success || !processingResult.text`. -/
def bgProcess (now : Nat) (uid : String) (db : AccountsDB) (stmt : StatementRec)
    (res : ProcessUploadResult) (info : AccountInfo) : BgRun :=
  let stmtP := { stmt with status := StSt.PROCESSING }
  if res.success && truthy res.text then
    let r := resolveAccount db uid info stmt.accountId
    { stmt :=
        { stmtP with
            status := StSt.COMPLETED
            accountId := r.1
            processedTimestamp := some now }
      db := r.2
      extractCalls := 1 }
  else
    { stmt :=
        { stmtP with
            status := StSt.FAILED
            errorMessage :=
              some (match res.error with
                    | some e => if e.isEmpty then fallbackErr else e
                    | none => fallbackErr)
            processedTimestamp := some now }
      db := db
      extractCalls := 1 }

/-! ## File processing entry point (file-processing.ts lines 17-125,
vision-ai.ts lines 243-253) -/

/-- Model of `processStatement` (vision-ai.ts lines 243-253): dispatch on the
MIME type; the OCR outcomes for the image and PDF paths are oracles
(`Except.error` models a thrown exception, carrying its message). -/
def processStatement (fileType : String)
    (ocrImage ocrPdf : Except String String) : Except String String :=
  if hasSub ("image/".toList) fileType.toList then ocrImage
  else if fileType = "application/pdf" then ocrPdf
  else Except.error ("Unsupported file type: " ++ fileType)

/-- Phase of `processUploadedFile` after the file bytes were obtained
(file-processing.ts lines 64-114): run `processStatement`, turn a thrown
error into a failure result, reject empty or whitespace-only text
(`!extractedText || extractedText.trim().length === 0`), otherwise succeed
with the text. -/
def processAfterRead (fileType : String)
    (ocrImage ocrPdf : Except String String) : ProcessUploadResult :=
  match processStatement fileType ocrImage ocrPdf with
  | Except.error msg =>
      { success := false, text := none,
        error := some ("Error during Vision AI processing: " ++ msg) }
  | Except.ok extractedText =>
      if extractedText.data.isEmpty || (trimChars extractedText.data).isEmpty then
        { success := false, text := none,
          error := some "No text could be extracted from the file" }
      else { success := true, text := some extractedText, error := none }

/-- Model of `processUploadedFile` (file-processing.ts lines 17-125): a URL
source (`startsWith('http')`) is fetched, a non-URL source is read from the
filesystem; then the OCR phase runs. A failed fetch or a failed filesystem
access is returned as a failure result. The temporary-file bookkeeping has no observable effect on the
result and is not modelled. -/
def processUploadedFile (filePathOrUrl fileType : String)
    (fetchRes accessRes : Except String Unit)
    (ocrImage ocrPdf : Except String String) : ProcessUploadResult :=
  if leadsWith ("http".toList) filePathOrUrl.toList then
    match fetchRes with
    | Except.error msg =>
        { success := false, text := none,
          error := some ("Failed to fetch file from URL: " ++ msg) }
    | Except.ok _ => processAfterRead fileType ocrImage ocrPdf
  else
    match accessRes with
    | Except.error msg =>
        { success := false, text := none,
          error := some ("File not found or not accessible: " ++ msg) }
    | Except.ok _ => processAfterRead fileType ocrImage ocrPdf

/-! ## Transaction persistence (alternate router, lines 183-205) -/

/-- Row of the Transaction table as created by the upload pipeline. -/
structure DbTransaction where
  statementId : Nat
  description : List Char
  amount : ℚ
  transactionDate : Option Nat
  originalText : List Char
  needsReview : Bool
deriving DecidableEq

/-- Bulk creation of Transaction rows from the parser's output (alternate
router lines 189-202): `originalText` is set to the parsed description and
`needsReview` is set to `true` for every row; the transaction date is the
parsed date (always present, so never `null`). -/
def persistTransactions (stId : Nat) (txs : List Tx) : List DbTransaction :=
  txs.map fun t =>
    { statementId := stId
      description := t.description
      amount := t.amount
      transactionDate := some t.date
      originalText := t.description
      needsReview := true }

/-- Effect of one upload run on the Transaction table (alternate router
lines 159-233): rows are appended only when extraction succeeded with truthy
text (`if (processingResult.text)`); no existing row is modified or removed
on any path. -/
def uploadRunTransactions (existing : List DbTransaction) (stId now : Nat)
    (res : ProcessUploadResult) : List DbTransaction :=
  match res.success, res.text with
  | true, some t =>
    if t.data.isEmpty then existing
    else existing ++ persistTransactions stId (parseTransactions now t.data)
  | _, _ => existing

/-! ## Theorems -/

theorem chainOk_from_terminal (s : StSt)
    (hs : s = .UPLOADED ∨ s = .COMPLETED ∨ s = .FAILED) :
    ∀ ops : List PipeOutcome, chainOk allowedWithReprocess (s :: writesOf ops) = true := by
  intro ops
  induction ops generalizing s with
  | nil => rfl
  | cons o os ih =>
    have hterm : outcomeStatus o = .COMPLETED ∨ outcomeStatus o = .FAILED := by
      cases o <;> simp [outcomeStatus]
    have htail := ih (outcomeStatus o) (Or.inr hterm)
    rcases hs with h | h | h <;> subst h <;> cases o <;>
      simpa [writesOf, chainOk, allowedWithReprocess, outcomeStatus] using htail

theorem review_needed_not_written (ops : List PipeOutcome) :
    StSt.REVIEW_NEEDED ∉ writesOf ops := by
  induction ops with
  | nil => simp [writesOf]
  | cons o os ih =>
    cases o <;> simp [writesOf, outcomeStatus] <;> exact ih

/-- C1 counterexample: a successful upload run followed by an explicit
re-process of the same statement moves the status backward from `COMPLETED`
to `PROCESSING`, so the claimed transition relation is violated by this
operation sequence. -/
theorem c1_counterexample :
    chainOk claimAllowed (statusTrace [.success, .success]) = false := by
  decide

/-- C1 (amended): along every serialized operation sequence, every transition
is either a forward step `UPLOADED → PROCESSING → {COMPLETED, FAILED}` or a
re-entry `{COMPLETED, FAILED} → PROCESSING` made by the explicit re-process
operation; in particular a terminal status is only ever entered from
`PROCESSING` (never skipping it), and `REVIEW_NEEDED` is never written. -/
theorem c1_status_chain (ops : List PipeOutcome) :
    chainOk allowedWithReprocess (statusTrace ops) = true ∧
      StSt.REVIEW_NEEDED ∉ statusTrace ops := by
  refine ⟨chainOk_from_terminal _ (Or.inl rfl) ops, ?_⟩
  intro hmem
  rcases List.mem_cons.mp hmem with h | h
  · exact StSt.noConfusion h
  · exact review_needed_not_written ops h

theorem amountMatchesF_head (fuel : Nat) (l : List Char) (h : l.length ≤ fuel) :
    (amountMatchesF fuel l).head? = firstAmountMatch l := by
  induction fuel generalizing l with
  | zero =>
    have hl : l = [] := List.eq_nil_of_length_eq_zero (Nat.le_zero.mp h)
    subst hl; rfl
  | succ fuel ih =>
    cases l with
    | nil => rfl
    | cons c rest =>
      cases hm : matchAmountAt (c :: rest) with
      | some m => simp [amountMatchesF, firstAmountMatch, hm]
      | none =>
        simp only [amountMatchesF, firstAmountMatch, hm]
        exact ih rest (by simpa using h)

theorem amountMatches_head (l : List Char) :
    (amountMatches l).head? = firstAmountMatch l :=
  amountMatchesF_head l.length l (Nat.le_refl _)

/-- C2 counterexample: `parseTransactions` is not a pure function of its input
text alone — the `date` field of each emitted transaction is the wall-clock
reading `new Date()` at call time, so two calls on the same text at different
clock readings yield different transaction sequences. -/
theorem c2_counterexample :
    parseTransactions 0 ("COFFEE $3.25".toList) ≠
      parseTransactions 1 ("COFFEE $3.25".toList) := by
  intro h
  have hd := congrArg (List.map Tx.date) h
  exact absurd hd (by decide)

/-- C2 (amended): parsing the same text twice yields the same descriptions and
amounts in the same order; only the `date` field, which is the wall-clock
reading at call time, can differ between the two calls. -/
theorem c2_parse_deterministic_mod_date (t1 t2 : Nat) (text : List Char) :
    (parseTransactions t1 text).map descAmount =
      (parseTransactions t2 text).map descAmount := by
  unfold parseTransactions
  generalize text.splitOn '\n' = ls
  induction ls with
  | nil => rfl
  | cons l ls ih =>
    simp only [parseLinesGo, List.map_append, ih]
    congr 1
    cases hf : firstAmountMatch l <;> simp [parseLine, hf, descAmount]

/-- C3: a line containing exactly one `\$\d+\.\d{2}` match parses to exactly
one transaction whose description is the trimmed line and whose amount is the
matched numeric value with the `$` stripped. -/
theorem c3_single_match_line (now : Nat) (line m : List Char)
    (h : amountMatches line = [m]) :
    parseLine now line =
      [{ description := trimChars line, amount := amountValue m, date := now }] := by
  have hf : firstAmountMatch line = some m := by
    rw [← amountMatches_head, h]; rfl
  simp [parseLine, hf]

/-- C3 witness: `"COFFEE SHOP $4.50"` has exactly one match and parses to one
transaction with amount `4.50` and description equal to the full line. -/
theorem c3_witness :
    parseLine 0 ("COFFEE SHOP $4.50".toList) =
      [{ description := "COFFEE SHOP $4.50".toList, amount := 9 / 2, date := 0 }] := by
  have h := c3_single_match_line 0 ("COFFEE SHOP $4.50".toList) ("$4.50".toList) (by decide)
  rw [h]
  have ht : trimChars ("COFFEE SHOP $4.50".toList) = "COFFEE SHOP $4.50".toList := by decide
  have ha : amountValue ("$4.50".toList) = 9 / 2 := by
    have h1 : ("$4.50".toList).drop 1 = ['4', '.', '5', '0'] := by decide
    have h2 : digitsToNat (List.takeWhile Char.isDigit ['4', '.', '5', '0']) = 4 := by decide
    have h3 : digitsToNat (List.drop 1 (List.dropWhile Char.isDigit ['4', '.', '5', '0'])) = 50 := by
      decide
    rw [amountValue, h1, h2, h3]
    norm_num
  rw [ht, ha]

/-- C4: a line with no `\$\d+\.\d{2}` match emits zero transactions, and a
line with two or more matches emits exactly one transaction whose amount
comes from the first match. -/
theorem c4_no_match_and_multi_match (now : Nat) (line : List Char) :
    (amountMatches line = [] → parseLine now line = []) ∧
      (∀ m1 m2 ms, amountMatches line = m1 :: m2 :: ms →
        parseLine now line =
          [{ description := trimChars line, amount := amountValue m1, date := now }]) := by
  constructor
  · intro h
    have hf : firstAmountMatch line = none := by
      rw [← amountMatches_head, h]; rfl
    simp [parseLine, hf]
  · intro m1 m2 ms h
    have hf : firstAmountMatch line = some m1 := by
      rw [← amountMatches_head, h]; rfl
    simp [parseLine, hf]

/-- C4 witness: a two-amount line emits one transaction with the first match's
value, and a line without an amount emits none. -/
theorem c4_witness :
    parseLine 0 ("A $1.00 B $2.00".toList) =
      [{ description := "A $1.00 B $2.00".toList, amount := 1, date := 0 }] ∧
    parseLine 0 ("no amounts here".toList) = [] := by
  constructor
  · have h := (c4_no_match_and_multi_match 0 ("A $1.00 B $2.00".toList)).2
      ("$1.00".toList) ("$2.00".toList) [] (by decide)
    rw [h]
    have ht : trimChars ("A $1.00 B $2.00".toList) = "A $1.00 B $2.00".toList := by decide
    have ha : amountValue ("$1.00".toList) = 1 := by
      have h1 : ("$1.00".toList).drop 1 = ['1', '.', '0', '0'] := by decide
      have h2 : digitsToNat (List.takeWhile Char.isDigit ['1', '.', '0', '0']) = 1 := by decide
      have h3 : digitsToNat (List.drop 1 (List.dropWhile Char.isDigit ['1', '.', '0', '0'])) = 0 := by
        decide
      rw [amountValue, h1, h2, h3]
      norm_num
    rw [ht, ha]
  · exact (c4_no_match_and_multi_match 0 ("no amounts here".toList)).1 (by decide)

theorem pdfAllText_chunks (f : Nat → List Char) (l : List Nat) :
    ∀ acc : List Char,
      l.foldl (fun a i => if f i = [] then a else a ++ pageSep (i + 1) ++ f i ++ ['\n']) acc
        = acc ++ chunks f l := by
  induction l with
  | nil => intro acc; simp [chunks]
  | cons i is ih =>
    intro acc
    simp only [List.foldl_cons, chunks]
    by_cases hfi : f i = []
    · simp only [if_pos hfi, List.nil_append]
      exact ih acc
    · simp only [if_neg hfi]
      rw [ih]
      simp [List.append_assoc]

theorem chunks_eq_fullChunks (f : Nat → List Char) (l : List Nat)
    (h : ∀ i ∈ l, f i ≠ []) : chunks f l = fullChunks f l := by
  induction l with
  | nil => rfl
  | cons i is ih =>
    have hi : f i ≠ [] := h i (List.mem_cons_self i is)
    simp only [chunks, fullChunks, if_neg hi, List.append_assoc]
    rw [ih fun j hj => h j (List.mem_cons_of_mem i hj)]

/-- C5 counterexample: a 12-page PDF all of whose pages OCR to empty text
yields the empty result text, which does not contain the separator line
`--- Page 1 ---` (nor any other): the loop only writes a separator when the
page's extracted text is nonempty. -/
theorem c5_counterexample :
    (extractTextFromPdf 12 (fun _ => [])).text = [] ∧
      hasSub ("--- Page 1 ---".toList) (extractTextFromPdf 12 (fun _ => [])).text = false := by
  decide

/-- C5 (amended): for a detected page count above 10, exactly the first 10
zero-based pages are converted, and — provided each of those pages OCRs to
nonempty text — the returned text is the trimmed concatenation, in order for
page numbers 1 through 10, of the separator `--- Page N ---` immediately
followed by page N's text. Pages whose OCR text is empty contribute neither
separator nor text. -/
theorem c5_first_ten_pages_markers (numPages : Nat) (f : Nat → List Char)
    (hn : 10 < numPages) (hne : ∀ i < 10, f i ≠ []) :
    (extractTextFromPdf numPages f).processedPages = List.range 10 ∧
      (extractTextFromPdf numPages f).text = trimChars (fullChunks f (List.range 10)) := by
  have hmin : min numPages 10 = 10 := Nat.min_eq_right (Nat.le_of_lt hn)
  constructor
  · simp [extractTextFromPdf, hmin]
  · have h1 : pdfAllText 10 f = chunks f (List.range 10) := by
      unfold pdfAllText
      exact (pdfAllText_chunks f (List.range 10) []).trans (List.nil_append _)
    have h2 : chunks f (List.range 10) = fullChunks f (List.range 10) :=
      chunks_eq_fullChunks f _ fun i hi => hne i (List.mem_range.mp hi)
    simp [extractTextFromPdf, hmin, h1, h2]

/-- C5 witness: a 12-page PDF whose pages each OCR to `"a"` processes pages
0 through 9 and returns the ten marker-plus-text chunks in order. -/
theorem c5_witness :
    (extractTextFromPdf 12 (fun _ => ['a'])).processedPages = List.range 10 ∧
      (extractTextFromPdf 12 (fun _ => ['a'])).text =
        trimChars (fullChunks (fun _ => ['a']) (List.range 10)) :=
  c5_first_ten_pages_markers 12 (fun _ => ['a']) (by decide) (fun i _ => List.cons_ne_nil _ _)

theorem map_id_balance_update (l : List BankAccount) (x : Nat) (y : Option String) :
    ((l.map fun a => if a.id = x then { a with balance := y } else a).map fun b => b.id)
      = l.map fun b => b.id := by
  induction l with
  | nil => rfl
  | cons a l ih => by_cases h : a.id = x <;> simp [h, ih]

/-- C6: with no existing account for the user matching the extracted
institution and last-four digits, and no extracted account name or type, the
first resolution appends exactly one new account — named
`<institution> Account` with account type `OTHER` — and returns its id; a
second resolution with the same inputs finds that account, returns the same
id, and adds no account. -/
theorem c6_resolve_find_or_create (db : AccountsDB) (uid inst lf : String)
    (info : AccountInfo)
    (hinst : info.financialInstitution = some inst)
    (hlf : info.lastFourDigits = some lf)
    (hinstne : inst.isEmpty = false) (hlfne : lf.isEmpty = false)
    (hname : info.accountName = none) (htype : info.accountType = none)
    (hnomatch : findMatching db uid inst lf = none) :
    ∃ a : BankAccount,
      (resolveAccount db uid info none).1 = some db.nextId ∧
      (resolveAccount db uid info none).2.accounts = db.accounts ++ [a] ∧
      a.id = db.nextId ∧ a.userId = uid ∧ a.financialInstitution = inst ∧
      a.lastFourDigits = lf ∧ a.name = inst ++ " Account" ∧ a.accountType = "OTHER" ∧
      (resolveAccount (resolveAccount db uid info none).2 uid info none).1
        = some db.nextId ∧
      ((resolveAccount (resolveAccount db uid info none).2 uid info none).2.accounts.map
          fun b => b.id)
        = ((resolveAccount db uid info none).2.accounts.map fun b => b.id) := by
  have hcond : (truthy info.lastFourDigits && truthy info.financialInstitution) = true := by
    rw [hinst, hlf]
    simp [truthy, hinstne, hlfne]
  refine ⟨{ id := db.nextId, userId := uid, name := inst ++ " Account",
            financialInstitution := inst, accountType := "OTHER",
            lastFourDigits := lf, balance := info.balance.map toString }, ?_⟩
  have h1 : resolveAccount db uid info none =
      (some db.nextId,
       { accounts := db.accounts ++
           [{ id := db.nextId, userId := uid, name := inst ++ " Account",
              financialInstitution := inst, accountType := "OTHER",
              lastFourDigits := lf, balance := info.balance.map toString }]
         nextId := db.nextId + 1 }) := by
    simp [resolveAccount, hinst, hlf, hname, htype, hnomatch, truthy, hinstne, hlfne]
  rw [h1]
  have hfind2 : findMatching
      ({ accounts := db.accounts ++
           [{ id := db.nextId, userId := uid, name := inst ++ " Account",
              financialInstitution := inst, accountType := "OTHER",
              lastFourDigits := lf, balance := info.balance.map toString }]
         nextId := db.nextId + 1 } : AccountsDB) uid inst lf =
      some { id := db.nextId, userId := uid, name := inst ++ " Account",
             financialInstitution := inst, accountType := "OTHER",
             lastFourDigits := lf, balance := info.balance.map toString } := by
    unfold findMatching at hnomatch ⊢
    rw [List.find?_append, hnomatch]
    simp
  refine ⟨rfl, rfl, rfl, rfl, rfl, rfl, rfl, rfl, ?_, ?_⟩
  · simp only [resolveAccount, hinst, hlf, Option.getD_some, hfind2]
    cases hb : info.balance <;> simp [truthy, hinstne, hlfne]
  · simp only [resolveAccount, hinst, hlf, Option.getD_some, hfind2]
    cases hb : info.balance with
    | none => simp [truthy, hinstne, hlfne]
    | some b =>
      have hc : (truthy (some lf) && truthy (some inst)) = true := by
        simp [truthy, hinstne, hlfne]
      rw [if_pos hc]
      simp [map_id_balance_update, -List.map_map]

/-- C6 witness: resolving `{institution: "Chase", lastFour: "1234"}` for user
`"u"` against an empty table creates exactly one defaulted account and a
second resolution finds it without creating a duplicate. -/
theorem c6_witness :
    ∃ a : BankAccount,
      (resolveAccount emptyDB "u" chaseInfo none).1 = some emptyDB.nextId ∧
      (resolveAccount emptyDB "u" chaseInfo none).2.accounts = emptyDB.accounts ++ [a] ∧
      a.id = emptyDB.nextId ∧ a.userId = "u" ∧ a.financialInstitution = "Chase" ∧
      a.lastFourDigits = "1234" ∧ a.name = "Chase" ++ " Account" ∧ a.accountType = "OTHER" ∧
      (resolveAccount (resolveAccount emptyDB "u" chaseInfo none).2 "u" chaseInfo none).1
        = some emptyDB.nextId ∧
      ((resolveAccount (resolveAccount emptyDB "u" chaseInfo none).2 "u"
            chaseInfo none).2.accounts.map fun b => b.id)
        = ((resolveAccount emptyDB "u" chaseInfo none).2.accounts.map fun b => b.id) :=
  c6_resolve_find_or_create emptyDB "u" "Chase" "1234" chaseInfo rfl rfl rfl rfl rfl rfl rfl

/-- C8: when an explicit account id is supplied, resolution returns it
unchanged and the BankAccount table is returned exactly as it was — no row is
looked up, created, or mutated, and no ownership check is performed (the
conclusion holds for every table, including tables in which the id does not
exist or belongs to a different user). -/
theorem c8_explicit_id_frame (db : AccountsDB) (uid : String) (info : AccountInfo) (i : Nat) :
    resolveAccount db uid info (some i) = (some i, db) := rfl

/-- C7: whenever the extraction step fails (unsuccessful result, or missing
or empty extracted text), the run leaves the statement in `FAILED` — never in
`PROCESSING` — with a nonempty error message and a processed timestamp set,
and `processUploadedFile` was invoked exactly once (no retry). -/
theorem c7_failure_terminal (now : Nat) (uid : String) (db : AccountsDB)
    (stmt : StatementRec) (res : ProcessUploadResult) (info : AccountInfo)
    (hfail : res.success = false ∨ res.text = none ∨ res.text = some "") :
    (bgProcess now uid db stmt res info).stmt.status = StSt.FAILED ∧
      (∃ m, (bgProcess now uid db stmt res info).stmt.errorMessage = some m ∧ m ≠ "") ∧
      (bgProcess now uid db stmt res info).stmt.processedTimestamp = some now ∧
      (bgProcess now uid db stmt res info).stmt.status ≠ StSt.PROCESSING ∧
      (bgProcess now uid db stmt res info).extractCalls = 1 := by
  have hcond : (res.success && truthy res.text) = false := by
    rcases hfail with h | h | h
    · simp [h]
    · simp [truthy, h]
    · simp [truthy, h, String.isEmpty]
  simp only [bgProcess, hcond, Bool.false_eq_true, if_false]
  refine ⟨trivial, ?_, trivial, by simp, trivial⟩
  cases he : res.error with
  | none => exact ⟨fallbackErr, rfl, by decide⟩
  | some e =>
    by_cases hemp : e.isEmpty = true
    · exact ⟨fallbackErr, by simp [hemp], by decide⟩
    · refine ⟨e, by simp [hemp], ?_⟩
      intro h
      exact hemp (h ▸ rfl)

/-- C7 witness: a run whose extraction result is `{success: false, error:
"boom"}` ends `FAILED` with message `"boom"`, a processed timestamp, and one
extraction call. -/
theorem c7_witness :
    (bgProcess 5 "u" emptyDB ⟨StSt.UPLOADED, none, none, none⟩
        ⟨false, none, some "boom"⟩ chaseInfo).stmt.status = StSt.FAILED ∧
      (∃ m, (bgProcess 5 "u" emptyDB ⟨StSt.UPLOADED, none, none, none⟩
          ⟨false, none, some "boom"⟩ chaseInfo).stmt.errorMessage = some m ∧ m ≠ "") ∧
      (bgProcess 5 "u" emptyDB ⟨StSt.UPLOADED, none, none, none⟩
          ⟨false, none, some "boom"⟩ chaseInfo).stmt.processedTimestamp = some 5 ∧
      (bgProcess 5 "u" emptyDB ⟨StSt.UPLOADED, none, none, none⟩
          ⟨false, none, some "boom"⟩ chaseInfo).stmt.status ≠ StSt.PROCESSING ∧
      (bgProcess 5 "u" emptyDB ⟨StSt.UPLOADED, none, none, none⟩
          ⟨false, none, some "boom"⟩ chaseInfo).extractCalls = 1 :=
  c7_failure_terminal 5 "u" emptyDB ⟨StSt.UPLOADED, none, none, none⟩
    ⟨false, none, some "boom"⟩ chaseInfo (Or.inl rfl)

theorem string_append_ne_empty (s t : String) (h : s ≠ "") : s ++ t ≠ "" := by
  intro he
  apply h
  have hd : s.data ++ t.data = ([] : List Char) := congrArg String.data he
  have hs : s.data = [] := (List.append_eq_nil.mp hd).1
  exact congrArg String.mk hs

theorem processAfterRead_total (fileType : String)
    (ocrImage ocrPdf : Except String String) :
    ((processAfterRead fileType ocrImage ocrPdf).success = true →
      ∃ t, (processAfterRead fileType ocrImage ocrPdf).text = some t ∧
        t ≠ "" ∧ trimChars t.data ≠ []) ∧
    ((processAfterRead fileType ocrImage ocrPdf).success = false →
      ∃ e, (processAfterRead fileType ocrImage ocrPdf).error = some e ∧ e ≠ "") := by
  unfold processAfterRead
  cases hp : processStatement fileType ocrImage ocrPdf with
  | error msg =>
    refine ⟨fun h => by simp at h, fun _ => ?_⟩
    exact ⟨_, rfl, string_append_ne_empty _ _ (by decide)⟩
  | ok t =>
    dsimp only
    by_cases hemp : (t.data.isEmpty || (trimChars t.data).isEmpty) = true
    · rw [if_pos hemp]
      exact ⟨fun h => by simp at h, fun _ => ⟨_, rfl, by decide⟩⟩
    · rw [if_neg hemp]
      simp only [Bool.or_eq_true, not_or, Bool.not_eq_true] at hemp
      refine ⟨fun _ => ⟨t, rfl, ?_, ?_⟩, fun h => by simp at h⟩
      · intro hts
        rw [hts] at hemp
        exact absurd hemp.1 (by decide)
      · intro hts
        have h2 := hemp.2
        rw [hts] at h2
        exact absurd h2 (by decide)

/-- C9: `processUploadedFile` always returns a result object (it is a total
function of its inputs and the modelled oracle outcomes — thrown errors never
escape): whenever it reports failure (unreachable source, unsupported MIME
type, OCR exception, or empty/whitespace-only text) the result carries a
nonempty error message, and whenever it reports success the result carries a
nonempty, non-whitespace-only extracted text. -/
theorem c9_process_uploaded_file_total (filePathOrUrl fileType : String)
    (fetchRes accessRes : Except String Unit)
    (ocrImage ocrPdf : Except String String) :
    ((processUploadedFile filePathOrUrl fileType fetchRes accessRes ocrImage ocrPdf).success
        = true →
      ∃ t, (processUploadedFile filePathOrUrl fileType fetchRes accessRes
          ocrImage ocrPdf).text = some t ∧ t ≠ "" ∧ trimChars t.data ≠ []) ∧
    ((processUploadedFile filePathOrUrl fileType fetchRes accessRes ocrImage ocrPdf).success
        = false →
      ∃ e, (processUploadedFile filePathOrUrl fileType fetchRes accessRes
          ocrImage ocrPdf).error = some e ∧ e ≠ "") := by
  unfold processUploadedFile
  by_cases hurl : leadsWith ("http".toList) filePathOrUrl.toList = true
  · rw [if_pos hurl]
    cases fetchRes with
    | error msg =>
      exact ⟨fun h => by simp at h, fun _ =>
        ⟨_, rfl, string_append_ne_empty _ _ (by decide)⟩⟩
    | ok u => exact processAfterRead_total fileType ocrImage ocrPdf
  · rw [if_neg hurl]
    cases accessRes with
    | error msg =>
      exact ⟨fun h => by simp at h, fun _ =>
        ⟨_, rfl, string_append_ne_empty _ _ (by decide)⟩⟩
    | ok u => exact processAfterRead_total fileType ocrImage ocrPdf

/-- C9 witness: a reachable image URL whose OCR returns `"hello"` yields a
successful result with that nonempty text, and an unsupported MIME type
yields a failure result with a nonempty message. -/
theorem c9_witness :
    (∃ t, (processUploadedFile "http://x" "image/png" (Except.ok ()) (Except.ok ())
        (Except.ok "hello") (Except.error "none")).text = some t ∧ t ≠ "" ∧
        trimChars t.data ≠ []) ∧
    (∃ e, (processUploadedFile "f.txt" "text/plain" (Except.ok ()) (Except.ok ())
        (Except.ok "x") (Except.ok "y")).error = some e ∧ e ≠ "") :=
  ⟨(c9_process_uploaded_file_total "http://x" "image/png" (Except.ok ()) (Except.ok ())
      (Except.ok "hello") (Except.error "none")).1 (by decide),
   (c9_process_uploaded_file_total "f.txt" "text/plain" (Except.ok ()) (Except.ok ())
      (Except.ok "x") (Except.ok "y")).2 (by decide)⟩

/-- C10: every Transaction row the upload run persists has `needsReview`
set to `true` and `originalText` equal to its `description` (both being the
trimmed matched line produced by the parser); the run only appends rows —
the pre-existing rows are returned unchanged, so no transaction is mutated
after creation. -/
theorem c10_transactions_invariant (existing : List DbTransaction) (stId now : Nat)
    (res : ProcessUploadResult) :
    ∃ created : List DbTransaction,
      uploadRunTransactions existing stId now res = existing ++ created ∧
      ∀ r ∈ created, r.needsReview = true ∧ r.originalText = r.description := by
  unfold uploadRunTransactions
  cases hs : res.success <;> cases ht : res.text
  · exact ⟨[], (List.append_nil existing).symm, by simp⟩
  · exact ⟨[], (List.append_nil existing).symm, by simp⟩
  · exact ⟨[], (List.append_nil existing).symm, by simp⟩
  · rename_i t
    dsimp only
    by_cases hemp : t.data.isEmpty = true
    · rw [if_pos hemp]
      exact ⟨[], (List.append_nil existing).symm, by simp⟩
    · rw [if_neg hemp]
      refine ⟨persistTransactions stId (parseTransactions now t.data), rfl, ?_⟩
      intro r hr
      rcases List.mem_map.mp hr with ⟨t', _, rfl⟩
      exact ⟨rfl, rfl⟩

/-- C10 witness: a successful run over the text `"A $1.00"` appends rows that
all carry `needsReview = true` and `originalText = description`. -/
theorem c10_witness :
    ∃ created : List DbTransaction,
      uploadRunTransactions [] 7 0 ⟨true, some "A $1.00", none⟩ = [] ++ created ∧
      ∀ r ∈ created, r.needsReview = true ∧ r.originalText = r.description :=
  c10_transactions_invariant [] 7 0 ⟨true, some "A $1.00", none⟩
